import Mathlib

/-!
# Language negotiation of `routers/router.go`

A shallow embedding of `setLangVer`, the per-request language negotiation of
the beebbs base router, and of the `Prepare` hook that loads the language
registry, calls `setLangVer` and redirects, together with the facts proved
about them.

Go strings are byte sequences: `len` counts bytes and `al[:5]` keeps the first
five bytes, so a string is modelled as a list of bytes.  The framework calls
the function makes (`url.Values.Get`, `Request.Cookie`, `Header.Get`,
`Context.SetCookie`, `strings.Split`, `strings.Index`, `Redirect`) are modelled
by what they return or record.  A run-time panic is an explicit result: the
state reached before it is kept.
-/

namespace Routers

/-- A byte of a Go string. -/
abbrev Byte := Fin 256

/-- A Go `string`: an immutable sequence of bytes. -/
abbrev GoString := List Byte

/-- The string literal `"lang"`. -/
def langKey : GoString := [108, 97, 110, 103]

/-- The string literal `"en-US"`. -/
def enUS : GoString := [101, 110, 45, 85, 83]

/-- The string literal `"/"`. -/
def rootPath : GoString := [47]

/-- The string literal `"Lang"`. -/
def keyLang : GoString := [76, 97, 110, 103]

/-- The string literal `"CurLang"`. -/
def keyCurLang : GoString := [67, 117, 114, 76, 97, 110, 103]

/-- The string literal `"RestLangs"`. -/
def keyRestLangs : GoString := [82, 101, 115, 116, 76, 97, 110, 103, 115]

/-- The type `langType` represents a language type. -/
structure langType where
  Lang : GoString
  Name : GoString
  deriving DecidableEq, Repr

/-- The part of `url.Values` the router reads: the values stored under the key
`lang`, in order (empty when the request has no such parameter). -/
structure Values where
  lang : List GoString
  deriving DecidableEq, Repr

/-- The call `input.Get("lang")`: the first value stored under the key, or the
empty string when there is none. -/
def Values.Get (input : Values) : GoString :=
  match input.lang with
  | [] => []
  | v :: _ => v

/-- The part of `http.Request` the router reads. -/
structure Request where
  /-- The field `RequestURI`. -/
  RequestURI : GoString
  /-- The value of the cookie named `lang`; `none` when `Cookie("lang")`
  returns an error. -/
  langCookie : Option GoString
  /-- The first `Accept-Language` header value; `none` when the header is
  absent. -/
  acceptLanguage : Option GoString
  deriving DecidableEq, Repr

/-- The call `Header.Get("Accept-Language")`: the header value, or the empty
string when the header is absent. -/
def Request.HeaderGet (r : Request) : GoString :=
  match r.acceptLanguage with
  | none => []
  | some v => v

/-- One `Set-Cookie` written to the response by `Context.SetCookie`. -/
structure Cookie where
  name : GoString
  value : GoString
  maxAge : Nat
  path : GoString
  deriving DecidableEq, Repr

/-- The `beego.Context`: the request and the cookies written to the response so
far, oldest first. -/
structure Context where
  Request : Request
  written : List Cookie
  deriving DecidableEq, Repr

/-- The call `ctx.SetCookie(name, value, maxAge, path)` adds one `Set-Cookie`
to the response. -/
def Context.SetCookie (ctx : Context) (name value : GoString) (maxAge : Nat)
    (path : GoString) : Context :=
  { ctx with written := ctx.written ++ [⟨name, value, maxAge, path⟩] }

/-- A value stored in the view-data map. -/
inductive Value where
  | str (s : GoString)
  | bool (b : Bool)
  | langs (l : List langType)
  deriving DecidableEq, Repr

/-- The view-data map `map[interface{}]interface{}`, keyed by strings here. -/
abbrev Data := GoString → Option Value

/-- The assignment `data[key] = v`. -/
def Data.set (data : Data) (key : GoString) (v : Value) : Data :=
  fun k => if k = key then some v else data k

/-- The constant `1<<31-1` passed as the cookie lifetime. -/
def maxAge : Nat := (1 <<< 31) - 1

/-- The loop of lines 96-101 and of lines 112-117: is `lang` the code of some
registered language. -/
def isRegistered (langTypes : List langType) (lang : GoString) : Bool :=
  langTypes.any (fun v => lang == v.Lang)

/-- The loop of lines 135-141: the entries whose code differs from `lang` are
appended to `restLangs` in order, and every entry whose code equals `lang`
overwrites `curLang.Name`. -/
def splitLangs (lang : GoString) (langTypes : List langType) :
    List langType × GoString :=
  langTypes.foldl
    (fun acc v => if lang ≠ v.Lang then (acc.1 ++ [v], acc.2) else (acc.1, v.Name))
    ([], [])

/-- What a call of `setLangVer` leaves behind: the context and the view data
as the call left them, and the pair `(isNeedRedir, lang)` it returned, `none`
when the call ended in a run-time panic. -/
structure Outcome where
  ctx : Context
  data : Data
  ret : Option (Bool × GoString)

/-- The function `setLangVer` sets the site language version.  The global
`langTypes` is passed as the first argument.  The call panics at
`make([]*langType, 0, len(langTypes)-1)` when `langTypes` is empty, the
capacity being `-1`; the cookie has been written by then and the view data
has not been touched. -/
def setLangVer (langTypes : List langType) (ctx : Context) (input : Values)
    (data : Data) : Outcome :=
  let isNeedRedir := false
  -- 1. Check URL arguments.
  let lang := input.Get
  -- 2. Get language information from cookies.
  let (lang, isNeedRedir) :=
    if lang.length = 0 then
      match ctx.Request.langCookie with
      | some ck => (ck, isNeedRedir)
      | none => (lang, isNeedRedir)
    else (lang, true)
  -- Check again in case someone modify by purpose.
  let isValid := isRegistered langTypes lang
  let (lang, isNeedRedir) :=
    if !isValid then (([] : GoString), false) else (lang, isNeedRedir)
  -- 3. Get language information from 'Accept-Language'.
  let lang :=
    if lang.length = 0 then
      let al := ctx.Request.HeaderGet
      if al.length > 4 then
        let al := al.take 5 -- Only compare first 5 letters.
        if isRegistered langTypes al then al else lang
      else lang
    else lang
  -- 4. Default language is English.
  let (lang, isNeedRedir) :=
    if lang.length = 0 then (enUS, false) else (lang, isNeedRedir)
  -- Save language information in cookies.
  let ctx := ctx.SetCookie langKey lang maxAge rootPath
  if langTypes.length = 0 then ⟨ctx, data, none⟩
  else
    let (restLangs, name) := splitLangs lang langTypes
    -- Set language properties.
    let data := data.set keyLang (Value.str lang)
    let data := data.set keyCurLang (Value.str name)
    let data := data.set keyRestLangs (Value.langs restLangs)
    ⟨ctx, data, some (isNeedRedir, lang)⟩

/-- The codes of a registry, in registry order. -/
def codes (langTypes : List langType) : List GoString :=
  langTypes.map langType.Lang

/-- The string literal `"de-DE"`. -/
def deDE : GoString := [100, 101, 45, 68, 69]

/-- The string literal `"fr-FR"`. -/
def frFR : GoString := [102, 114, 45, 70, 82]

/-- The string literal `"en"`. -/
def en : GoString := [101, 110]

/-- The string literal `"xx"`, a code no sample registry holds. -/
def xx : GoString := [120, 120]

/-- The string literal `"de-DE,en;q=0.8"`. -/
def deHeader : GoString := [100, 101, 45, 68, 69, 44, 101, 110, 59, 113, 61, 48, 46, 56]

/-- The string literal `"English"`. -/
def nameEnglish : GoString := [69, 110, 103, 108, 105, 115, 104]

/-- The string literal `"Deutsch"`. -/
def nameDeutsch : GoString := [68, 101, 117, 116, 115, 99, 104]

/-- The string literal `"Français"` in UTF-8. -/
def nameFrancais : GoString := [70, 114, 97, 110, 195, 167, 97, 105, 115]

/-- A sample registry: English, German and French. -/
def sampleLangs : List langType :=
  [⟨enUS, nameEnglish⟩, ⟨deDE, nameDeutsch⟩, ⟨frFR, nameFrancais⟩]

/-- The registry loaded from an empty `types` setting: one entry whose code is
the empty string. -/
def blankLangs : List langType := [⟨[], []⟩]

/-- A registry that does not hold `en-US`. -/
def germanOnly : List langType := [⟨deDE, nameDeutsch⟩]

/-- A context for the request `req` with nothing written to the response. -/
def freshCtx (req : Request) : Context := ⟨req, []⟩

/-- The empty view-data map. -/
def noData : Data := fun _ => none

/-- The registry loaded from the `types` setting `"|de-DE"`: an entry whose
code is the empty string, then German. -/
def blankAndGerman : List langType := [⟨[], []⟩, ⟨deDE, nameDeutsch⟩]

/-- A registry whose only code is the two-byte `"en"`. -/
def shortLangs : List langType := [⟨en, nameEnglish⟩]

/-- Lines 82-92 of `setLangVer`: the value of `lang` that reaches the
validation loop, which is the query value, or the cookie value when the query
value is empty and the cookie is there. -/
def candidate (ctx : Context) (input : Values) : GoString :=
  if input.Get = [] then
    match ctx.Request.langCookie with
    | some ck => ck
    | none => []
  else input.Get

/-! ## The `Prepare` hook -/

/-- The byte `|`, the separator of the two configuration strings. -/
def pipe : Byte := 124

/-- The byte `?`. -/
def questionMark : Byte := 63

/-- The string literal `"AppVer"`. -/
def keyAppVer : GoString := [65, 112, 112, 86, 101, 114]

/-- The string literal `"IsProMode"`. -/
def keyIsProMode : GoString := [73, 115, 80, 114, 111, 77, 111, 100, 101]

/-- The string literal `"IsBeta"`. -/
def keyIsBeta : GoString := [73, 115, 66, 101, 116, 97]

/-- The call `strings.Split(s, sep)` for a one-byte separator: the pieces of
`s` between the occurrences of `sep`, in order.  The empty string gives the
one piece `""`. -/
def Split (s : GoString) (sep : Byte) : List GoString :=
  match s with
  | [] => [[]]
  | b :: rest =>
    if b = sep then [] :: Split rest sep
    else
      match Split rest sep with
      | [] => [[b]]
      | piece :: pieces => (b :: piece) :: pieces

/-- The call `strings.Index(s, sep)` for a one-byte `sep`: the index of the
first occurrence of `sep` in `s`, or `-1` when there is none. -/
def Index (s : GoString) (sep : Byte) : Int :=
  if s.indexOf sep < s.length then (s.indexOf sep : Nat) else -1

/-- The slice expression `s[:i]`: the first `i` bytes of `s`, `none` when the
expression panics because `i` is negative or exceeds `len(s)`. -/
def slicePrefix (s : GoString) (i : Int) : Option GoString :=
  if 0 ≤ i ∧ i ≤ (s.length : Int) then some (s.take i.toNat) else none

/-- The loop of lines 59-64, from index `i` on: each remaining code `v` is
appended with `names[i]`.  The flag is `true` when `names[i]` panics with an
index out of range; the entries appended before stay in `langTypes`. -/
def initLangs (names : List GoString) (i : Nat) (langs : List GoString)
    (langTypes : List langType) : List langType × Bool :=
  match langs with
  | [] => (langTypes, false)
  | v :: rest =>
    match names[i]? with
    | some name => initLangs names (i + 1) rest (langTypes ++ [⟨v, name⟩])
    | none => (langTypes, true)

/-- The two settings of section `lang` that `utils.Cfg.MustValue` returns. -/
structure Config where
  types : GoString
  names : GoString
  deriving DecidableEq, Repr

/-- The package-level variables. -/
structure Globals where
  AppVer : GoString
  IsProMode : Bool
  IsBeta : Bool
  langTypes : List langType
  deriving DecidableEq, Repr

/-- The type `baseRouter`: the controller state `Prepare` reads and writes.
`Input` is what `this.Input()` returns, `Locale` the language of the
`i18n.Locale` set so far, `redirect` the target and status of the call of
`this.Redirect`, if one was made. -/
structure baseRouter where
  Ctx : Context
  Data : Data
  Input : Values
  Locale : Option GoString
  redirect : Option (GoString × Nat)

/-- The run-time panics of `Prepare`. -/
inductive Panic where
  /-- The index expression `names[i]` of line 62. -/
  | indexOutOfRange
  /-- The call `make` of line 134, inside `setLangVer`. -/
  | makesliceCap
  /-- The slice expression `RequestURI[:i]` of line 72. -/
  | sliceBounds
  deriving DecidableEq, Repr

/-- What a call of `Prepare` leaves behind: the package-level variables, the
controller, and the panic that ended the call, if any. -/
structure Prepared where
  globals : Globals
  this : baseRouter
  panic : Option Panic

/-- The method `Prepare` of `baseRouter`. -/
def Prepare (g : Globals) (cfg : Config) (this : baseRouter) : Prepared :=
  -- Setting properties.
  let data := this.Data.set keyAppVer (Value.str g.AppVer)
  let data := data.set keyIsProMode (Value.bool g.IsProMode)
  let data := data.set keyIsBeta (Value.bool g.IsBeta)
  let this := { this with Data := data }
  -- Setting language version.
  let (langTypes, failed) :=
    if g.langTypes.length = 0 then
      -- Initialize languages.
      let langs := Split cfg.types pipe
      let names := Split cfg.names pipe
      initLangs names 0 langs []
    else (g.langTypes, false)
  let g := { g with langTypes := langTypes }
  if failed then ⟨g, this, some Panic.indexOutOfRange⟩
  else
    let out := setLangVer g.langTypes this.Ctx this.Input this.Data
    let this := { this with Ctx := out.ctx, Data := out.data }
    match out.ret with
    | none => ⟨g, this, some Panic.makesliceCap⟩
    | some (isNeedRedir, langVer) =>
      let this := { this with Locale := some langVer }
      -- Redirect to make URL clean.
      if isNeedRedir then
        let i := Index this.Ctx.Request.RequestURI questionMark
        match slicePrefix this.Ctx.Request.RequestURI i with
        | none => ⟨g, this, some Panic.sliceBounds⟩
        | some url => ⟨g, { this with redirect := some (url, 302) }, none⟩
      else ⟨g, this, none⟩

/-- The string literal `"zh-CN"`. -/
def zhCN : GoString := [122, 104, 45, 67, 78]

/-- The string literal `"简体中文"` in UTF-8. -/
def nameChinese : GoString :=
  [231, 174, 128, 228, 189, 147, 228, 184, 173, 230, 150, 135]

/-- The registry of the end-to-end example: English and Chinese. -/
def exampleLangs : List langType := [⟨enUS, nameEnglish⟩, ⟨zhCN, nameChinese⟩]

/-- A registry whose one entry has an empty display name, as loaded from the
settings `types = "en-US"` and `names = ""`. -/
def namelessLangs : List langType := [⟨enUS, []⟩]

/-- The string literal `"en-US|de-DE"`. -/
def typesTwo : GoString := enUS ++ [pipe] ++ deDE

/-- The string literal `"English|Deutsch"`. -/
def namesTwo : GoString := nameEnglish ++ [pipe] ++ nameDeutsch

/-- The string literal `"/?lang=fr-FR"`. -/
def uriWithQuery : GoString := [47, 63, 108, 97, 110, 103, 61] ++ frFR

/-- The package-level variables before the first request. -/
def startGlobals : Globals := ⟨[], false, false, []⟩

/-- A controller for the request `req` with the form values `input`, before
`Prepare` runs. -/
def freshRouter (req : Request) (input : Values) : baseRouter :=
  ⟨freshCtx req, noData, input, none, none⟩

/-! ## Shared lemmas -/

theorem isRegistered_iff (L : List langType) (c : GoString) :
    isRegistered L c = true ↔ c ∈ codes L := by
  simp only [isRegistered, codes, List.any_eq_true, List.mem_map, beq_iff_eq]
  constructor
  · rintro ⟨v, hv, rfl⟩; exact ⟨v, hv, rfl⟩
  · rintro ⟨v, hv, rfl⟩; exact ⟨v, hv, rfl⟩

theorem isRegistered_eq_false_iff (L : List langType) (c : GoString) :
    isRegistered L c = false ↔ c ∉ codes L := by
  rw [← isRegistered_iff]; simp

theorem ne_nil_of_mem_codes {L : List langType} {c : GoString} (h : c ∈ codes L) :
    L ≠ [] := by
  rintro rfl; simp [codes] at h

theorem Get_eq_nil_of_lang_nil {input : Values} (h : input.lang = []) :
    input.Get = [] := by
  simp [Values.Get, h]

/-- A non-empty registered query value is returned with the redirect flag. -/
theorem ret_of_query {L : List langType} (ctx : Context) {input : Values} (data : Data)
    (hne : input.Get ≠ []) (hc : input.Get ∈ codes L) :
    (setLangVer L ctx input data).ret = some (true, input.Get) := by
  have hL := ne_nil_of_mem_codes hc
  have hreg := (isRegistered_iff L _).2 hc
  simp [setLangVer, hne, hreg, hL]

/-- With an empty query value, a non-empty registered cookie value is returned
without the redirect flag. -/
theorem ret_of_cookie {L : List langType} {ctx : Context} {input : Values} (data : Data)
    {c : GoString} (hq : input.Get = []) (hck : ctx.Request.langCookie = some c)
    (hne : c ≠ []) (hc : c ∈ codes L) :
    (setLangVer L ctx input data).ret = some (false, c) := by
  have hL := ne_nil_of_mem_codes hc
  have hreg := (isRegistered_iff L _).2 hc
  simp [setLangVer, hq, hck, hne, hreg, hL]

/-- When the candidate is empty or unregistered, a header whose first five
bytes are a registered code selects that code, without the redirect flag. -/
theorem ret_of_header {L : List langType} {ctx : Context} {input : Values} (data : Data)
    (hcand : candidate ctx input = [] ∨ candidate ctx input ∉ codes L)
    (hlen : 4 < ctx.Request.HeaderGet.length)
    (hc : ctx.Request.HeaderGet.take 5 ∈ codes L) :
    (setLangVer L ctx input data).ret = some (false, ctx.Request.HeaderGet.take 5) := by
  have hL := ne_nil_of_mem_codes hc
  have hreg := (isRegistered_iff L _).2 hc
  have h5 : ctx.Request.HeaderGet ≠ [] := by
    intro h; simp [h] at hlen
  unfold candidate at hcand
  by_cases hq : input.Get = []
  · cases hck : ctx.Request.langCookie with
    | none =>
      by_cases hv : isRegistered L [] = true <;>
        simp [setLangVer, hq, hck, hlen, hreg, hL, hv, h5]
    | some ck =>
      simp only [hq, hck, if_true] at hcand
      rcases hcand with h | h
      · subst h
        by_cases hv : isRegistered L [] = true <;>
          simp [setLangVer, hq, hck, hlen, hreg, hL, hv, h5]
      · have hv := (isRegistered_eq_false_iff L ck).2 h
        simp [setLangVer, hq, hck, hlen, hreg, hL, hv, h5]
  · simp only [hq, if_false] at hcand
    rcases hcand with h | h
    · exact h.elim
    · have hv := (isRegistered_eq_false_iff L _).2 h
      simp [setLangVer, hq, hlen, hreg, hL, hv, h5]

/-- When the candidate is empty or unregistered and the header selects no
code, a non-empty registry gives the fallback without the redirect flag. -/
theorem ret_of_fallback {L : List langType} {ctx : Context} {input : Values} (data : Data)
    (hL : L ≠ [])
    (hcand : candidate ctx input = [] ∨ candidate ctx input ∉ codes L)
    (hal : ¬ (4 < ctx.Request.HeaderGet.length ∧ ctx.Request.HeaderGet.take 5 ∈ codes L)) :
    (setLangVer L ctx input data).ret = some (false, enUS) := by
  have hal2 : 4 < ctx.Request.HeaderGet.length →
      isRegistered L (ctx.Request.HeaderGet.take 5) = false := by
    intro h
    exact (isRegistered_eq_false_iff L _).2 (fun hc => hal ⟨h, hc⟩)
  unfold candidate at hcand
  by_cases hlen : 4 < ctx.Request.HeaderGet.length
  · have hr := hal2 hlen
    by_cases hq : input.Get = []
    · cases hck : ctx.Request.langCookie with
      | none =>
        by_cases hv : isRegistered L [] = true <;>
          simp [setLangVer, hq, hck, hlen, hr, hL, hv]
      | some ck =>
        simp only [hq, hck, if_true] at hcand
        rcases hcand with h | h
        · subst h
          by_cases hv : isRegistered L [] = true <;>
            simp [setLangVer, hq, hck, hlen, hr, hL, hv]
        · have hv := (isRegistered_eq_false_iff L ck).2 h
          simp [setLangVer, hq, hck, hlen, hr, hL, hv]
    · simp only [hq, if_false] at hcand
      rcases hcand with h | h
      · exact h.elim
      · have hv := (isRegistered_eq_false_iff L _).2 h
        simp [setLangVer, hq, hlen, hr, hL, hv]
  · by_cases hq : input.Get = []
    · cases hck : ctx.Request.langCookie with
      | none =>
        by_cases hv : isRegistered L [] = true <;>
          simp [setLangVer, hq, hck, hlen, hL, hv]
      | some ck =>
        simp only [hq, hck, if_true] at hcand
        rcases hcand with h | h
        · subst h
          by_cases hv : isRegistered L [] = true <;>
            simp [setLangVer, hq, hck, hlen, hL, hv]
        · have hv := (isRegistered_eq_false_iff L ck).2 h
          simp [setLangVer, hq, hck, hlen, hL, hv]
    · simp only [hq, if_false] at hcand
      rcases hcand with h | h
      · exact h.elim
      · have hv := (isRegistered_eq_false_iff L _).2 h
        simp [setLangVer, hq, hlen, hL, hv]

/-- With an empty registry the call panics and returns nothing. -/
theorem ret_of_nil (ctx : Context) (input : Values) (data : Data) :
    (setLangVer [] ctx input data).ret = none := by
  simp [setLangVer]

/-- The four ways a call with a non-empty registry returns. -/
theorem ret_cases {L : List langType} (ctx : Context) (input : Values) (data : Data)
    (hL : L ≠ []) :
    (input.Get ≠ [] ∧ input.Get ∈ codes L ∧
        (setLangVer L ctx input data).ret = some (true, input.Get)) ∨
    (input.Get = [] ∧ ∃ c, ctx.Request.langCookie = some c ∧ c ≠ [] ∧ c ∈ codes L ∧
        (setLangVer L ctx input data).ret = some (false, c)) ∨
    ((input.Get = [] ∨ input.Get ∉ codes L) ∧ 4 < ctx.Request.HeaderGet.length ∧
        ctx.Request.HeaderGet.take 5 ∈ codes L ∧
        (setLangVer L ctx input data).ret = some (false, ctx.Request.HeaderGet.take 5)) ∨
    ((input.Get = [] ∨ input.Get ∉ codes L) ∧
        (setLangVer L ctx input data).ret = some (false, enUS)) := by
  by_cases hgood : candidate ctx input ≠ [] ∧ candidate ctx input ∈ codes L
  · by_cases hq : input.Get = []
    · right; left
      refine ⟨hq, ?_⟩
      cases hck : ctx.Request.langCookie with
      | none => simp [candidate, hq, hck] at hgood
      | some ck =>
        simp only [candidate, hq, hck, if_true] at hgood
        exact ⟨ck, rfl, hgood.1, hgood.2, ret_of_cookie data hq hck hgood.1 hgood.2⟩
    · left
      simp only [candidate, hq, if_false] at hgood
      exact ⟨hq, hgood.2, ret_of_query ctx data hq hgood.2⟩
  · have hcand : candidate ctx input = [] ∨ candidate ctx input ∉ codes L := by
      by_cases h : candidate ctx input = []
      · exact Or.inl h
      · exact Or.inr (fun hc => hgood ⟨h, hc⟩)
    have hqq : input.Get = [] ∨ input.Get ∉ codes L := by
      by_cases hq : input.Get = []
      · exact Or.inl hq
      · right
        simp only [candidate, hq, if_false] at hcand
        rcases hcand with h | h
        · exact h.elim
        · exact h
    right; right
    by_cases hal : 4 < ctx.Request.HeaderGet.length ∧ ctx.Request.HeaderGet.take 5 ∈ codes L
    · left
      exact ⟨hqq, hal.1, hal.2, ret_of_header data hcand hal.1 hal.2⟩
    · right
      exact ⟨hqq, ret_of_fallback data hL hcand hal⟩

/-- The call leaves the request alone and adds exactly one cookie; when it
returns, the cookie holds the returned code and so does the key `Lang`. -/
theorem effects (L : List langType) (ctx : Context) (input : Values) (data : Data) :
    ∃ c, (setLangVer L ctx input data).ctx =
        ⟨ctx.Request, ctx.written ++ [⟨langKey, c, 2147483647, rootPath⟩]⟩ ∧
      (L ≠ [] → (∃ b, (setLangVer L ctx input data).ret = some (b, c)) ∧
        (setLangVer L ctx input data).data keyLang = some (Value.str c)) := by
  unfold setLangVer
  simp only []
  split
  · next h =>
    refine ⟨_, rfl, fun hL => ?_⟩
    exact absurd (List.length_eq_zero.1 h) hL
  · refine ⟨_, rfl, fun _ => ⟨⟨_, rfl⟩, ?_⟩⟩
    have h1 : keyLang ≠ keyRestLangs := by decide
    have h2 : keyLang ≠ keyCurLang := by decide
    simp [Data.set, h1, h2]

/-- A returned code is non-empty and is a registered code or `"en-US"`, and
only a non-empty registry lets the call return. -/
theorem ret_code_props {L : List langType} {ctx : Context} {input : Values} {data : Data}
    {b : Bool} {c : GoString} (h : (setLangVer L ctx input data).ret = some (b, c)) :
    L ≠ [] ∧ c ≠ [] ∧ (c ∈ codes L ∨ c = enUS) := by
  have hL : L ≠ [] := by
    rintro rfl
    rw [ret_of_nil] at h
    exact Option.noConfusion h
  refine ⟨hL, ?_⟩
  rcases ret_cases ctx input data hL with ⟨hne, hc, hr⟩ | ⟨_, c1, _, hne, hc, hr⟩ |
      ⟨_, hlen, hc, hr⟩ | ⟨_, hr⟩
  · rw [hr] at h
    obtain ⟨_, rfl⟩ := Prod.mk.inj (Option.some.inj h)
    exact ⟨hne, Or.inl hc⟩
  · rw [hr] at h
    obtain ⟨_, rfl⟩ := Prod.mk.inj (Option.some.inj h)
    exact ⟨hne, Or.inl hc⟩
  · rw [hr] at h
    obtain ⟨_, rfl⟩ := Prod.mk.inj (Option.some.inj h)
    refine ⟨?_, Or.inl hc⟩
    intro h0
    have hz : (ctx.Request.HeaderGet.take 5).length = 0 := by rw [h0]; rfl
    rw [List.length_take] at hz
    omega
  · rw [hr] at h
    obtain ⟨_, rfl⟩ := Prod.mk.inj (Option.some.inj h)
    exact ⟨by decide, Or.inr rfl⟩

/-! ## The query parameter -/

/-- C1, as stated, fails on the registry loaded from an empty `types` setting:
its only code is the empty string, the request `?lang=` carries a `lang`
parameter equal to that code, and the call returns `"en-US"` without the
redirect flag instead of the code with the flag. -/
theorem query_code_counterexample :
    (codes blankLangs).Nodup ∧ ([] : GoString) ∈ codes blankLangs ∧
    (Values.mk [[]]).lang.head? = some [] ∧
    (setLangVer blankLangs (freshCtx ⟨rootPath, none, none⟩) ⟨[[]]⟩ noData).ret =
      some (false, enUS) := by
  decide

/-- C1, amended: for every registry and every request whose `lang` query
parameter equals a non-empty code of the registry, `setLangVer` returns that
code with `needsRedirect = true`, whatever the cookie and the
`Accept-Language` header hold. -/
theorem query_code_selected (L : List langType) (ctx : Context) (input : Values)
    (data : Data) (c : GoString) (hc : c ∈ codes L) (hne : c ≠ [])
    (hq : input.Get = c) :
    (setLangVer L ctx input data).ret = some (true, c) := by
  subst hq
  exact ret_of_query ctx data hne hc

/-- The query `fr-FR` wins over the cookie `en-US`. -/
theorem query_code_selected_witness :
    frFR ∈ codes sampleLangs ∧ frFR ≠ [] ∧ (Values.mk [frFR]).Get = frFR ∧
    (setLangVer sampleLangs (freshCtx ⟨rootPath, some enUS, some deHeader⟩) ⟨[frFR]⟩
      noData).ret = some (true, frFR) :=
  ⟨by decide, by decide, rfl,
    query_code_selected sampleLangs (freshCtx ⟨rootPath, some enUS, some deHeader⟩)
      ⟨[frFR]⟩ noData frFR (by decide) (by decide) rfl⟩

/-- C2: whenever `setLangVer` returns, the returned code is non-empty and is
the code of a registry entry or the literal `"en-US"`; and it does return for
every non-empty registry. -/
theorem returned_code_registered_or_default (L : List langType) (ctx : Context)
    (input : Values) (data : Data) :
    (∀ b c, (setLangVer L ctx input data).ret = some (b, c) →
      c ≠ [] ∧ (c ∈ codes L ∨ c = enUS)) ∧
    (L ≠ [] → ∃ b c, (setLangVer L ctx input data).ret = some (b, c)) := by
  constructor
  · intro b c h
    exact (ret_code_props h).2
  · intro hL
    rcases ret_cases ctx input data hL with ⟨_, _, hr⟩ | ⟨_, c1, _, _, _, hr⟩ |
        ⟨_, _, _, hr⟩ | ⟨_, hr⟩
    · exact ⟨_, _, hr⟩
    · exact ⟨_, _, hr⟩
    · exact ⟨_, _, hr⟩
    · exact ⟨_, _, hr⟩

/-- On the German-only registry a request without signals returns the
unregistered `"en-US"`. -/
theorem returned_code_registered_or_default_witness :
    germanOnly ≠ [] ∧
    ∃ b c, (setLangVer germanOnly (freshCtx ⟨rootPath, none, none⟩) ⟨[]⟩ noData).ret =
        some (b, c) ∧ c ≠ [] ∧ (c ∈ codes germanOnly ∨ c = enUS) := by
  have h := returned_code_registered_or_default germanOnly
    (freshCtx ⟨rootPath, none, none⟩) ⟨[]⟩ noData
  obtain ⟨b, c, hr⟩ := h.2 (by decide)
  exact ⟨by decide, b, c, hr, h.1 b c hr⟩

/-- C3: `setLangVer` returns `needsRedirect = true` if and only if the `lang`
query parameter is non-empty and equals a registered code. -/
theorem redirect_iff_query_registered (L : List langType) (ctx : Context)
    (input : Values) (data : Data) :
    (∃ c, (setLangVer L ctx input data).ret = some (true, c)) ↔
      (input.Get ≠ [] ∧ input.Get ∈ codes L) := by
  constructor
  · rintro ⟨c, h⟩
    have hL := (ret_code_props h).1
    rcases ret_cases ctx input data hL with ⟨hne, hc, _⟩ | ⟨_, c1, _, _, _, hr⟩ |
        ⟨_, _, _, hr⟩ | ⟨_, hr⟩
    · exact ⟨hne, hc⟩
    · rw [hr] at h; simp at h
    · rw [hr] at h; simp at h
    · rw [hr] at h; simp at h
  · rintro ⟨hne, hc⟩
    exact ⟨_, ret_of_query ctx data hne hc⟩

/-! ## The cookie -/

/-- C4, as stated, fails on the registry loaded from an empty `types` setting:
the request has no `lang` query parameter, its `lang` cookie holds the empty
string, which is a code of the registry, and the call returns `"en-US"`
rather than the cookie's code. -/
theorem cookie_code_counterexample :
    ([] : GoString) ∈ codes blankLangs ∧ (Values.mk []).lang = [] ∧
    (setLangVer blankLangs (freshCtx ⟨rootPath, some [], none⟩) ⟨[]⟩ noData).ret =
      some (false, enUS) ∧
    (setLangVer blankLangs (freshCtx ⟨rootPath, some [], none⟩) ⟨[]⟩ noData).ret ≠
      some (false, []) := by
  decide

/-- C4, amended: for every registry and every request with no `lang` query
parameter whose `lang` cookie value is a non-empty code of the registry,
`setLangVer` returns that code with `needsRedirect = false`, whatever the
`Accept-Language` header holds. -/
theorem cookie_code_selected (L : List langType) (ctx : Context) (input : Values)
    (data : Data) (c : GoString) (hq : input.lang = [])
    (hck : ctx.Request.langCookie = some c) (hc : c ∈ codes L) (hne : c ≠ []) :
    (setLangVer L ctx input data).ret = some (false, c) :=
  ret_of_cookie data (Get_eq_nil_of_lang_nil hq) hck hne hc

/-- The cookie `fr-FR` is kept although the header asks for German. -/
theorem cookie_code_selected_witness :
    (Values.mk []).lang = [] ∧ frFR ∈ codes sampleLangs ∧ frFR ≠ [] ∧
    (setLangVer sampleLangs (freshCtx ⟨rootPath, some frFR, some deHeader⟩) ⟨[]⟩
      noData).ret = some (false, frFR) :=
  ⟨rfl, by decide, by decide,
    cookie_code_selected sampleLangs (freshCtx ⟨rootPath, some frFR, some deHeader⟩)
      ⟨[]⟩ noData frFR rfl rfl (by decide) (by decide)⟩

/-! ## The `Accept-Language` header -/

/-- C5: with no `lang` query parameter and no `lang` cookie, a header longer
than 4 bytes whose first 5 bytes are a registered code makes `setLangVer`
return that code with `needsRedirect = false`. -/
theorem header_prefix_selected (L : List langType) (ctx : Context) (input : Values)
    (data : Data) (hq : input.lang = []) (hck : ctx.Request.langCookie = none)
    (hlen : 4 < ctx.Request.HeaderGet.length)
    (hc : ctx.Request.HeaderGet.take 5 ∈ codes L) :
    (setLangVer L ctx input data).ret = some (false, ctx.Request.HeaderGet.take 5) := by
  refine ret_of_header data (Or.inl ?_) hlen hc
  simp [candidate, Get_eq_nil_of_lang_nil hq, hck]

/-- The header `de-DE,en;q=0.8` selects `de-DE`. -/
theorem header_prefix_selected_witness :
    (Values.mk []).lang = [] ∧
    4 < (Request.mk rootPath none (some deHeader)).HeaderGet.length ∧
    (Request.mk rootPath none (some deHeader)).HeaderGet.take 5 ∈ codes sampleLangs ∧
    (setLangVer sampleLangs (freshCtx ⟨rootPath, none, some deHeader⟩) ⟨[]⟩ noData).ret =
      some (false, deDE) :=
  ⟨rfl, by decide, by decide,
    header_prefix_selected sampleLangs (freshCtx ⟨rootPath, none, some deHeader⟩) ⟨[]⟩
      noData rfl rfl (by decide) (by decide)⟩

/-- C6, as stated, fails twice.  A non-empty unregistered query value hides a
registered cookie: with query `xx` and cookie `en-US` the header still
decides, `de-DE` with the header `de-DE,en;q=0.8` and `en-US` without it.  And
a registered empty code does not count as a selection: on the registry loaded
from `"|de-DE"` the request `?lang=` is decided by the header in the same
way. -/
theorem header_ignored_counterexample :
    (enUS ∈ codes sampleLangs ∧
      (setLangVer sampleLangs (freshCtx ⟨rootPath, some enUS, some deHeader⟩) ⟨[xx]⟩
        noData).ret = some (false, deDE) ∧
      (setLangVer sampleLangs (freshCtx ⟨rootPath, some enUS, none⟩) ⟨[xx]⟩
        noData).ret = some (false, enUS)) ∧
    (([] : GoString) ∈ codes blankAndGerman ∧ (Values.mk [[]]).lang.head? = some [] ∧
      (setLangVer blankAndGerman (freshCtx ⟨rootPath, none, some deHeader⟩) ⟨[[]]⟩
        noData).ret = some (false, deDE) ∧
      (setLangVer blankAndGerman (freshCtx ⟨rootPath, none, none⟩) ⟨[[]]⟩
        noData).ret = some (false, enUS)) := by
  decide

/-- C6, amended: for every registry and every two requests that carry the
same `lang` cookie, if the `lang` query parameter is a non-empty registered
code, or it is empty or absent and the `lang` cookie is a non-empty registered
code, then `setLangVer` returns the same code and the same `needsRedirect`
for both, whatever their `Accept-Language` headers hold. -/
theorem header_ignored (L : List langType) (ctx1 ctx2 : Context) (input : Values)
    (data : Data) (hsame : ctx1.Request.langCookie = ctx2.Request.langCookie)
    (h : (input.Get ≠ [] ∧ input.Get ∈ codes L) ∨
      (input.Get = [] ∧ ∃ c, ctx1.Request.langCookie = some c ∧ c ≠ [] ∧ c ∈ codes L)) :
    ∃ b c, (setLangVer L ctx1 input data).ret = some (b, c) ∧
      (setLangVer L ctx2 input data).ret = some (b, c) := by
  rcases h with ⟨hne, hc⟩ | ⟨hq, c, hck, hne, hc⟩
  · exact ⟨true, input.Get, ret_of_query ctx1 data hne hc, ret_of_query ctx2 data hne hc⟩
  · exact ⟨false, c, ret_of_cookie data hq hck hne hc,
      ret_of_cookie data hq (hsame ▸ hck) hne hc⟩

/-- With the cookie `fr-FR` the header `de-DE,en;q=0.8` changes nothing. -/
theorem header_ignored_witness :
    ∃ b c,
      (setLangVer sampleLangs (freshCtx ⟨rootPath, some frFR, some deHeader⟩) ⟨[]⟩
        noData).ret = some (b, c) ∧
      (setLangVer sampleLangs (freshCtx ⟨rootPath, some frFR, none⟩) ⟨[]⟩
        noData).ret = some (b, c) :=
  header_ignored sampleLangs (freshCtx ⟨rootPath, some frFR, some deHeader⟩)
    (freshCtx ⟨rootPath, some frFR, none⟩) ⟨[]⟩ noData rfl
    (Or.inr ⟨rfl, frFR, rfl, by decide, by decide⟩)

/-! ## The fallback -/

/-- C7, as stated, fails on the empty registry: the query value `xx` is
non-empty and unregistered, there is no cookie and no header, and the call
panics at the allocation of the other-languages list instead of returning. -/
theorem unregistered_query_counterexample :
    xx ≠ [] ∧ xx ∉ codes [] ∧
    (setLangVer [] (freshCtx ⟨rootPath, none, none⟩) ⟨[xx]⟩ noData).ret = none := by
  decide

/-- C7, amended: for every non-empty registry and every request whose `lang`
query parameter is non-empty and is not a code of the registry, with no
`Accept-Language` header, `setLangVer` returns `"en-US"` with
`needsRedirect = false`, whether or not `"en-US"` is in the registry.  The
cookie is not read on this path, so the request with no `lang` cookie is one
instance. -/
theorem unregistered_query_falls_back (L : List langType) (ctx : Context)
    (input : Values) (data : Data) (hL : L ≠ []) (hne : input.Get ≠ [])
    (hc : input.Get ∉ codes L) (hal : ctx.Request.acceptLanguage = none) :
    (setLangVer L ctx input data).ret = some (false, enUS) := by
  refine ret_of_fallback data hL (Or.inr ?_) ?_
  · simpa [candidate, hne] using hc
  · simp [Request.HeaderGet, hal]

/-- The query `xx` on the German-only registry gives `en-US`, which that
registry does not hold. -/
theorem unregistered_query_falls_back_witness :
    germanOnly ≠ [] ∧ (Values.mk [xx]).Get ≠ [] ∧ (Values.mk [xx]).Get ∉ codes germanOnly ∧
    enUS ∉ codes germanOnly ∧
    (setLangVer germanOnly (freshCtx ⟨rootPath, none, none⟩) ⟨[xx]⟩ noData).ret =
      some (false, enUS) :=
  ⟨by decide, by decide, by decide, by decide,
    unregistered_query_falls_back germanOnly (freshCtx ⟨rootPath, none, none⟩) ⟨[xx]⟩
      noData (by decide) (by decide) (by decide) rfl⟩

/-- C8, as stated, fails on the empty registry: the request has no query
parameter and no cookie, the header `en` is shorter than 5 bytes, and the call
panics at the allocation of the other-languages list instead of returning
`"en-US"`. -/
theorem short_header_counterexample :
    (Request.mk rootPath none (some en)).HeaderGet.length < 5 ∧
    (setLangVer [] (freshCtx ⟨rootPath, none, some en⟩) ⟨[]⟩ noData).ret = none := by
  decide

/-- C8, amended: for every non-empty registry and every request whose `lang`
query parameter and `lang` cookie are each absent or unregistered, an
`Accept-Language` header shorter than 5 bytes selects nothing: `setLangVer`
returns `"en-US"` with `needsRedirect = false`. -/
theorem short_header_falls_back (L : List langType) (ctx : Context) (input : Values)
    (data : Data) (hL : L ≠ [])
    (hq : ∀ v, input.lang.head? = some v → v ∉ codes L)
    (hck : ∀ v, ctx.Request.langCookie = some v → v ∉ codes L)
    (hlen : ctx.Request.HeaderGet.length < 5) :
    (setLangVer L ctx input data).ret = some (false, enUS) := by
  refine ret_of_fallback data hL ?_ (fun h => by omega)
  unfold candidate
  by_cases hg : input.Get = []
  · rw [if_pos hg]
    cases hk : ctx.Request.langCookie with
    | none => exact Or.inl rfl
    | some ck => exact Or.inr (hck ck hk)
  · rw [if_neg hg]
    right
    cases hl : input.lang with
    | nil => exact absurd (Get_eq_nil_of_lang_nil hl) hg
    | cons v vs =>
      have hv : input.Get = v := by simp [Values.Get, hl]
      rw [hv]
      exact hq v (by simp [hl])

/-- The header `en` selects nothing even on a registry whose one code is
`en`. -/
theorem short_header_falls_back_witness :
    shortLangs ≠ [] ∧ en ∈ codes shortLangs ∧
    (Request.mk rootPath none (some en)).HeaderGet.length < 5 ∧
    (setLangVer shortLangs (freshCtx ⟨rootPath, none, some en⟩) ⟨[]⟩ noData).ret =
      some (false, enUS) :=
  ⟨by decide, by decide, by decide,
    short_header_falls_back shortLangs (freshCtx ⟨rootPath, none, some en⟩) ⟨[]⟩ noData
      (by decide) (fun v h => Option.noConfusion h) (fun v h => Option.noConfusion h)
      (by decide)⟩

/-! ## The persisted cookie -/

/-- C9, as stated, fails when the returned code is the unregistered fallback:
on the German-only registry a request without signals returns `"en-US"`, and
the next request, with no query parameter, the cookie `en-US` and the header
`de-DE,en;q=0.8`, returns `de-DE`. -/
theorem cookie_keeps_locale_counterexample :
    (setLangVer germanOnly (freshCtx ⟨rootPath, none, none⟩) ⟨[]⟩ noData).ret =
      some (false, enUS) ∧
    (Values.mk []).lang = [] ∧
    (setLangVer germanOnly (freshCtx ⟨rootPath, some enUS, some deHeader⟩) ⟨[]⟩
      noData).ret = some (false, deDE) ∧
    deDE ≠ enUS := by
  decide

/-- C9, amended: for every registry and every request on which `setLangVer`
returns code `c`, every later request that carries no `lang` query parameter
and whose `lang` cookie value is `c` makes `setLangVer` return `c` again with
`needsRedirect = false`, provided `c` is a registered code or the later
request's `Accept-Language` header selects no registered code. -/
theorem cookie_keeps_locale (L : List langType) (ctx : Context) (input : Values)
    (data : Data) (b : Bool) (c : GoString)
    (hfirst : (setLangVer L ctx input data).ret = some (b, c))
    (ctx2 : Context) (input2 : Values) (data2 : Data) (hq : input2.lang = [])
    (hck : ctx2.Request.langCookie = some c)
    (hkeep : c ∈ codes L ∨ ¬ (4 < ctx2.Request.HeaderGet.length ∧
      ctx2.Request.HeaderGet.take 5 ∈ codes L)) :
    (setLangVer L ctx2 input2 data2).ret = some (false, c) := by
  obtain ⟨hL, hne, hreg⟩ := ret_code_props hfirst
  have hg := Get_eq_nil_of_lang_nil hq
  by_cases hc : c ∈ codes L
  · exact ret_of_cookie data2 hg hck hne hc
  · have hen : c = enUS := hreg.resolve_left hc
    have hal := hkeep.resolve_left hc
    rw [hen]
    refine ret_of_fallback data2 hL (Or.inr ?_) hal
    simpa [candidate, hg, hck] using hc

/-- After the query `fr-FR` the cookie `fr-FR` keeps French, whatever the
header asks for. -/
theorem cookie_keeps_locale_witness :
    (setLangVer sampleLangs (freshCtx ⟨rootPath, none, none⟩) ⟨[frFR]⟩ noData).ret =
      some (true, frFR) ∧
    (Values.mk []).lang = [] ∧ frFR ∈ codes sampleLangs ∧
    (setLangVer sampleLangs (freshCtx ⟨rootPath, some frFR, some deHeader⟩) ⟨[]⟩
      noData).ret = some (false, frFR) :=
  ⟨by decide, rfl, by decide,
    cookie_keeps_locale sampleLangs (freshCtx ⟨rootPath, none, none⟩) ⟨[frFR]⟩ noData
      true frFR (by decide) (freshCtx ⟨rootPath, some frFR, some deHeader⟩) ⟨[]⟩ noData
      rfl rfl (Or.inl (by decide))⟩

/-- C10, as stated, fails on the empty registry: the fallback path writes the
cookie and then panics at the allocation of the other-languages list, so no
code is returned and the key `Lang` is never set. -/
theorem cookie_written_counterexample :
    (setLangVer [] (freshCtx ⟨rootPath, none, none⟩) ⟨[]⟩ noData).ctx.written =
      [⟨langKey, enUS, 2 ^ 31 - 1, rootPath⟩] ∧
    (setLangVer [] (freshCtx ⟨rootPath, none, none⟩) ⟨[]⟩ noData).ret = none ∧
    (setLangVer [] (freshCtx ⟨rootPath, none, none⟩) ⟨[]⟩ noData).data keyLang = none := by
  decide

/-- C10, amended: for every non-empty registry, on every path through
`setLangVer` exactly one cookie is written, named `lang`, with path `/`,
max-age `2^31-1` and value equal to the code `setLangVer` returns, and the
view-data key `Lang` is set to that same code. -/
theorem cookie_written (L : List langType) (ctx : Context) (input : Values)
    (data : Data) (hL : L ≠ []) :
    ∃ b c, (setLangVer L ctx input data).ret = some (b, c) ∧
      (setLangVer L ctx input data).ctx.written =
        ctx.written ++ [⟨langKey, c, 2 ^ 31 - 1, rootPath⟩] ∧
      (setLangVer L ctx input data).data keyLang = some (Value.str c) := by
  obtain ⟨c, hctx, h⟩ := effects L ctx input data
  obtain ⟨⟨b, hr⟩, hd⟩ := h hL
  refine ⟨b, c, hr, ?_, hd⟩
  rw [hctx]
  norm_num

/-- The query `fr-FR` adds the cookie `lang=fr-FR` after what was written
before and sets `Lang` to `fr-FR`. -/
theorem cookie_written_witness :
    sampleLangs ≠ [] ∧
    ∃ b c, (setLangVer sampleLangs ⟨⟨rootPath, none, none⟩, [⟨xx, en, 0, rootPath⟩]⟩
        ⟨[frFR]⟩ noData).ret = some (b, c) ∧
      (setLangVer sampleLangs ⟨⟨rootPath, none, none⟩, [⟨xx, en, 0, rootPath⟩]⟩
        ⟨[frFR]⟩ noData).ctx.written =
        [⟨xx, en, 0, rootPath⟩] ++ [⟨langKey, c, 2 ^ 31 - 1, rootPath⟩] ∧
      (setLangVer sampleLangs ⟨⟨rootPath, none, none⟩, [⟨xx, en, 0, rootPath⟩]⟩
        ⟨[frFR]⟩ noData).data keyLang = some (Value.str c) :=
  ⟨by decide,
    cookie_written sampleLangs ⟨⟨rootPath, none, none⟩, [⟨xx, en, 0, rootPath⟩]⟩
      ⟨[frFR]⟩ noData (by decide)⟩

/-! ## Lemmas on the view data -/

/-- The loop of lines 135-141 started from any accumulator: the first
component grows by the entries whose code differs from `c`. -/
theorem foldl_rest (c : GoString) (L : List langType) (acc : List langType × GoString) :
    (L.foldl
      (fun acc v => if c ≠ v.Lang then (acc.1 ++ [v], acc.2) else (acc.1, v.Name))
      acc).1 = acc.1 ++ L.filter (fun v => decide (c ≠ v.Lang)) := by
  induction L generalizing acc with
  | nil => simp
  | cons u t ih =>
    rw [List.foldl_cons, ih]
    by_cases h : c = u.Lang
    · simp [h]
    · simp [h]

/-- The loop keeps the name it started with when no entry has the code `c`. -/
theorem foldl_name_of_not_mem (c : GoString) (L : List langType)
    (acc : List langType × GoString) (h : c ∉ codes L) :
    (L.foldl
      (fun acc v => if c ≠ v.Lang then (acc.1 ++ [v], acc.2) else (acc.1, v.Name))
      acc).2 = acc.2 := by
  induction L generalizing acc with
  | nil => simp
  | cons u t ih =>
    have hu : c ≠ u.Lang := by
      intro hcu; apply h; simp [codes, hcu]
    have ht : c ∉ codes t := by
      intro hct; apply h
      simp only [codes, List.map_cons, List.mem_cons]
      exact Or.inr hct
    rw [List.foldl_cons, ih _ ht]
    simp [hu]

/-- With unique codes the loop ends with the name of the entry whose code is
`c`. -/
theorem foldl_name_of_mem (c : GoString) (L : List langType)
    (acc : List langType × GoString) (hnd : (codes L).Nodup) (v : langType)
    (hv : v ∈ L) (hc : v.Lang = c) :
    (L.foldl
      (fun acc v => if c ≠ v.Lang then (acc.1 ++ [v], acc.2) else (acc.1, v.Name))
      acc).2 = v.Name := by
  induction L generalizing acc with
  | nil => cases hv
  | cons u t ih =>
    simp only [codes, List.map_cons, List.nodup_cons] at hnd
    rw [List.foldl_cons]
    rcases List.mem_cons.1 hv with rfl | hvt
    · have ht : c ∉ codes t := by rw [← hc]; exact hnd.1
      rw [foldl_name_of_not_mem c t _ ht]
      simp [hc]
    · exact ih _ hnd.2 hvt

theorem splitLangs_fst (c : GoString) (L : List langType) :
    (splitLangs c L).1 = L.filter (fun v => decide (c ≠ v.Lang)) := by
  unfold splitLangs
  rw [foldl_rest]
  simp

/-- Removing the entries of an unregistered code removes nothing. -/
theorem filter_eq_of_not_mem (c : GoString) (L : List langType) (hc : c ∉ codes L) :
    L.filter (fun v => decide (c ≠ v.Lang)) = L := by
  rw [List.filter_eq_self]
  intro a ha
  have : c ≠ a.Lang := by
    intro hca; apply hc; rw [hca]
    exact List.mem_map_of_mem _ ha
  simpa using this

/-- With unique codes, removing the entries of a registered code removes
exactly one entry. -/
theorem filter_length_of_mem (c : GoString) (L : List langType)
    (hnd : (codes L).Nodup) (hc : c ∈ codes L) :
    (L.filter (fun v => decide (c ≠ v.Lang))).length + 1 = L.length := by
  induction L with
  | nil => simp [codes] at hc
  | cons u t ih =>
    simp only [codes, List.map_cons, List.nodup_cons] at hnd
    by_cases h : c = u.Lang
    · have ht : c ∉ codes t := by rw [h]; exact hnd.1
      rw [List.filter_cons_of_neg (by simp [h]), filter_eq_of_not_mem c t ht]
      rfl
    · have hct : c ∈ codes t := by
        simp only [codes, List.map_cons, List.mem_cons] at hc
        rcases hc with hc | hc
        · exact absurd hc h
        · exact hc
      have := ih hnd.2 hct
      rw [List.filter_cons_of_pos (by simp [h]), List.length_cons, List.length_cons]
      omega

/-- When the call returns the code `c`, the keys `RestLangs` and `CurLang`
hold the two results of the loop of lines 135-141 run with `c`. -/
theorem view_data {L : List langType} {ctx : Context} {input : Values} {data : Data}
    {b : Bool} {c : GoString} (h : (setLangVer L ctx input data).ret = some (b, c)) :
    (setLangVer L ctx input data).data keyRestLangs =
        some (Value.langs (splitLangs c L).1) ∧
      (setLangVer L ctx input data).data keyCurLang =
        some (Value.str (splitLangs c L).2) := by
  have h1 : keyCurLang ≠ keyRestLangs := by decide
  revert h
  unfold setLangVer
  simp only []
  split
  · intro h; exact Option.noConfusion h
  · intro h
    obtain ⟨_, rfl⟩ := Prod.mk.inj (Option.some.inj h)
    simp [Data.set, h1]

/-- A call with a non-empty registry returns. -/
theorem ret_of_ne_nil {L : List langType} (ctx : Context) (input : Values) (data : Data)
    (hL : L ≠ []) : ∃ b c, (setLangVer L ctx input data).ret = some (b, c) := by
  rcases ret_cases ctx input data hL with ⟨_, _, hr⟩ | ⟨_, c1, _, _, _, hr⟩ |
      ⟨_, _, _, hr⟩ | ⟨_, hr⟩
  · exact ⟨_, _, hr⟩
  · exact ⟨_, _, hr⟩
  · exact ⟨_, _, hr⟩
  · exact ⟨_, _, hr⟩

/-! ## The view data -/

/-- C11: whenever `setLangVer` returns the code `c`, the key `RestLangs` holds
the registry without the entries whose code is `c`, in registry order; with
unique codes that is one entry fewer than the registry when `c` is
registered, and it is the whole registry when `c` is not registered.  The
call does return for every non-empty registry. -/
theorem rest_langs_written (L : List langType) (ctx : Context) (input : Values)
    (data : Data) :
    (∀ b c, (setLangVer L ctx input data).ret = some (b, c) →
      (setLangVer L ctx input data).data keyRestLangs =
          some (Value.langs (L.filter (fun v => decide (c ≠ v.Lang)))) ∧
        ((codes L).Nodup → c ∈ codes L →
          (L.filter (fun v => decide (c ≠ v.Lang))).length + 1 = L.length) ∧
        (c ∉ codes L → L.filter (fun v => decide (c ≠ v.Lang)) = L)) ∧
    (L ≠ [] → ∃ b c, (setLangVer L ctx input data).ret = some (b, c)) := by
  refine ⟨fun b c h => ⟨?_, ?_, ?_⟩, fun hL => ret_of_ne_nil ctx input data hL⟩
  · rw [(view_data h).1, splitLangs_fst]
  · exact fun hnd hc => filter_length_of_mem c L hnd hc
  · exact fun hc => filter_eq_of_not_mem c L hc

/-- The end-to-end example: on the registry English, Chinese the query
`zh-CN` leaves `RestLangs` with the one entry English. -/
theorem rest_langs_written_witness :
    exampleLangs ≠ [] ∧ (codes exampleLangs).Nodup ∧ zhCN ∈ codes exampleLangs ∧
    (setLangVer exampleLangs (freshCtx ⟨rootPath, none, none⟩) ⟨[zhCN]⟩ noData).ret =
      some (true, zhCN) ∧
    (setLangVer exampleLangs (freshCtx ⟨rootPath, none, none⟩) ⟨[zhCN]⟩
      noData).data keyRestLangs = some (Value.langs [⟨enUS, nameEnglish⟩]) ∧
    (exampleLangs.filter (fun v => decide (zhCN ≠ v.Lang))).length + 1 =
      exampleLangs.length :=
  have h := (rest_langs_written exampleLangs (freshCtx ⟨rootPath, none, none⟩)
    ⟨[zhCN]⟩ noData).1 true zhCN (by decide)
  ⟨by decide, by decide, by decide, by decide, h.1.trans (by decide),
    h.2.1 (by decide) (by decide)⟩

/-- C12, as stated, fails in its "exactly when": on the registry loaded from
`types = "en-US"` and `names = ""` the returned code `en-US` is registered
and `CurLang` is the empty string all the same, the entry's display name
being empty. -/
theorem cur_lang_counterexample :
    (codes namelessLangs).Nodup ∧
    (setLangVer namelessLangs (freshCtx ⟨rootPath, none, none⟩) ⟨[]⟩ noData).ret =
      some (false, enUS) ∧
    enUS ∈ codes namelessLangs ∧
    (setLangVer namelessLangs (freshCtx ⟨rootPath, none, none⟩) ⟨[]⟩
      noData).data keyCurLang = some (Value.str []) := by
  decide

/-- C12, amended: for every registry with unique codes, whenever `setLangVer`
returns the code `c`, the key `CurLang` holds the display name of the entry
whose code is `c`, and holds the empty string when `c` is not in the
registry; it is the empty string only when `c` is not in the registry or the
display name of its entry is empty.  The call does return for every
non-empty registry. -/
theorem cur_lang_written (L : List langType) (ctx : Context) (input : Values)
    (data : Data) (hnd : (codes L).Nodup) :
    (∀ b c, (setLangVer L ctx input data).ret = some (b, c) →
      (∀ v ∈ L, v.Lang = c →
        (setLangVer L ctx input data).data keyCurLang = some (Value.str v.Name)) ∧
      (c ∉ codes L →
        (setLangVer L ctx input data).data keyCurLang = some (Value.str [])) ∧
      ((setLangVer L ctx input data).data keyCurLang = some (Value.str []) →
        c ∉ codes L ∨ ∃ v ∈ L, v.Lang = c ∧ v.Name = [])) ∧
    (L ≠ [] → ∃ b c, (setLangVer L ctx input data).ret = some (b, c)) := by
  refine ⟨fun b c h => ?_, fun hL => ret_of_ne_nil ctx input data hL⟩
  have hname : ∀ v ∈ L, v.Lang = c →
      (setLangVer L ctx input data).data keyCurLang = some (Value.str v.Name) := by
    intro v hv hc
    rw [(view_data h).2]
    unfold splitLangs
    rw [foldl_name_of_mem c L _ hnd v hv hc]
  refine ⟨hname, ?_, ?_⟩
  · intro hc
    rw [(view_data h).2]
    unfold splitLangs
    rw [foldl_name_of_not_mem c L _ hc]
  · intro hempty
    by_cases hc : c ∈ codes L
    · right
      obtain ⟨v, hv, hvc⟩ := List.mem_map.1 hc
      refine ⟨v, hv, hvc, ?_⟩
      have := (hname v hv hvc).symm.trans hempty
      exact Value.str.inj (Option.some.inj this)
    · exact Or.inl hc

/-- On the sample registry the query `fr-FR` sets `CurLang` to `Français`. -/
theorem cur_lang_written_witness :
    (codes sampleLangs).Nodup ∧
    (setLangVer sampleLangs (freshCtx ⟨rootPath, none, none⟩) ⟨[frFR]⟩ noData).ret =
      some (true, frFR) ∧
    (setLangVer sampleLangs (freshCtx ⟨rootPath, none, none⟩) ⟨[frFR]⟩
      noData).data keyCurLang = some (Value.str nameFrancais) :=
  ⟨by decide, by decide,
    ((cur_lang_written sampleLangs (freshCtx ⟨rootPath, none, none⟩) ⟨[frFR]⟩ noData
      (by decide)).1 true frFR (by decide)).1 ⟨frFR, nameFrancais⟩ (by decide) rfl⟩

/-! ## Lemmas on the registry load -/

/-- The call `strings.Split` never returns an empty list. -/
theorem Split_ne_nil (s : GoString) (sep : Byte) : Split s sep ≠ [] := by
  cases s with
  | nil => simp [Split]
  | cons b rest =>
    unfold Split
    split
    · simp
    · split <;> simp

/-- The loop of lines 59-64 pairs the codes with the names from index `i` on,
as far as the names reach, and panics exactly when the names run out first. -/
theorem initLangs_eq (names : List GoString) (langs : List GoString) (i : Nat)
    (acc : List langType) :
    initLangs names i langs acc =
      (acc ++ List.zipWith langType.mk langs (names.drop i),
        decide (names.length - i < langs.length)) := by
  induction langs generalizing i acc with
  | nil => simp [initLangs]
  | cons v rest ih =>
    unfold initLangs
    cases h : names[i]? with
    | none =>
      have hi : names.length ≤ i := List.getElem?_eq_none_iff.1 h
      have hd : names.drop i = [] := List.drop_eq_nil_of_le hi
      have hz : names.length - i = 0 := by omega
      simp [hd, hz]
    | some name =>
      obtain ⟨hi, hn⟩ := List.getElem?_eq_some.1 h
      have hd : names.drop i = name :: names.drop (i + 1) := by
        rw [List.drop_eq_getElem_cons hi, hn]
      have hflag : (names.length - (i + 1) < rest.length) ↔
          (names.length - i < (v :: rest).length) := by
        simp only [List.length_cons]; omega
      simp only [ih, hd, List.zipWith_cons_cons, List.append_assoc, List.singleton_append]
      simp only [decide_eq_decide.2 hflag]

/-- A call of `Prepare` that finds `langTypes` non-empty leaves it alone. -/
theorem Prepare_langTypes_of_ne_nil (g : Globals) (cfg : Config) (this : baseRouter)
    (h : g.langTypes ≠ []) : (Prepare g cfg this).globals.langTypes = g.langTypes := by
  have hl : ¬ g.langTypes.length = 0 := fun h0 => h (List.length_eq_zero.1 h0)
  unfold Prepare
  simp only [hl, if_false, Bool.false_eq_true]
  split
  · rfl
  · split
    · split <;> rfl
    · rfl

/-- A call of `Prepare` that finds `langTypes` empty leaves in it what the
loop of lines 59-64 appended, whether or not the loop ended in a panic. -/
theorem Prepare_langTypes_of_nil (g : Globals) (cfg : Config) (this : baseRouter)
    (h : g.langTypes = []) :
    (Prepare g cfg this).globals.langTypes =
      (initLangs (Split cfg.names pipe) 0 (Split cfg.types pipe) []).1 := by
  unfold Prepare
  simp only [h, List.length_nil, if_true]
  split
  · rfl
  · split
    · rfl
    · split
      · split <;> rfl
      · rfl

/-- A call of `Prepare` that finds `langTypes` empty ends in the index panic
exactly when the loop of lines 59-64 does. -/
theorem Prepare_panic_of_nil (g : Globals) (cfg : Config) (this : baseRouter)
    (h : g.langTypes = []) :
    (Prepare g cfg this).panic = some Panic.indexOutOfRange ↔
      (initLangs (Split cfg.names pipe) 0 (Split cfg.types pipe) []).2 = true := by
  unfold Prepare
  simp only [h, List.length_nil, if_true]
  split
  · next hf => simp [hf]
  · next hf =>
    split
    · simp [hf]
    · split
      · split <;> simp [hf]
      · simp [hf]

/-- What the first call of `Prepare` leaves in `langTypes`: the codes paired
with the names, as far as both reach. -/
theorem Prepare_langTypes_zip (g : Globals) (cfg : Config) (this : baseRouter)
    (h : g.langTypes = []) :
    (Prepare g cfg this).globals.langTypes =
      List.zipWith langType.mk (Split cfg.types pipe) (Split cfg.names pipe) := by
  rw [Prepare_langTypes_of_nil g cfg this h, initLangs_eq]
  simp

/-- After any call of `Prepare` the registry is non-empty. -/
theorem Prepare_langTypes_ne_nil (g : Globals) (cfg : Config) (this : baseRouter) :
    (Prepare g cfg this).globals.langTypes ≠ [] := by
  by_cases h : g.langTypes = []
  · rw [Prepare_langTypes_zip g cfg this h]
    intro hz
    rcases List.zipWith_eq_nil_iff.1 hz with h1 | h1
    · exact Split_ne_nil _ _ h1
    · exact Split_ne_nil _ _ h1
  · rw [Prepare_langTypes_of_ne_nil g cfg this h]
    exact h

/-! ## The registry load -/

/-- C13, as stated, fails in one direction: with `types = "en-US"` and
`names = "English|Deutsch"` the lists have lengths 1 and 2, the load does not
fail and the registry is the one entry English. -/
theorem load_length_counterexample :
    (Split enUS pipe).length ≠ (Split namesTwo pipe).length ∧
    (Prepare startGlobals ⟨enUS, namesTwo⟩
      (freshRouter ⟨rootPath, none, none⟩ ⟨[]⟩)).panic = none ∧
    (Prepare startGlobals ⟨enUS, namesTwo⟩
      (freshRouter ⟨rootPath, none, none⟩ ⟨[]⟩)).globals.langTypes =
      [⟨enUS, nameEnglish⟩] := by
  decide

/-- C13, amended: the registry load in `Prepare` fails exactly when the list
of codes is longer than the list of display names; when the names are at
least as many as the codes it does not fail and the registry pairs each code
with the name at its position, the names beyond the last code being left
out. -/
theorem load_fails_iff_names_short (g : Globals) (cfg : Config) (this : baseRouter)
    (hg : g.langTypes = []) :
    ((Prepare g cfg this).panic = some Panic.indexOutOfRange ↔
      (Split cfg.names pipe).length < (Split cfg.types pipe).length) ∧
    ((Split cfg.types pipe).length ≤ (Split cfg.names pipe).length →
      (Prepare g cfg this).globals.langTypes =
        List.zipWith langType.mk (Split cfg.types pipe) (Split cfg.names pipe)) := by
  refine ⟨?_, fun _ => Prepare_langTypes_zip g cfg this hg⟩
  rw [Prepare_panic_of_nil g cfg this hg, initLangs_eq]
  simp

/-- Two codes and one name: the load ends in the index panic. -/
theorem load_fails_iff_names_short_witness :
    startGlobals.langTypes = [] ∧
    (Split nameEnglish pipe).length < (Split typesTwo pipe).length ∧
    (Prepare startGlobals ⟨typesTwo, nameEnglish⟩
      (freshRouter ⟨rootPath, none, none⟩ ⟨[]⟩)).panic = some Panic.indexOutOfRange :=
  ⟨rfl, by decide,
    (load_fails_iff_names_short startGlobals ⟨typesTwo, nameEnglish⟩
      (freshRouter ⟨rootPath, none, none⟩ ⟨[]⟩) rfl).1.2 (by decide)⟩

/-- C14: when the two configuration strings split into lists of the same
length `n`, the load does not fail, the registry has `n` entries and its
`i`-th entry is the `i`-th code with the `i`-th display name. -/
theorem load_zips (g : Globals) (cfg : Config) (this : baseRouter)
    (hg : g.langTypes = [])
    (hlen : (Split cfg.types pipe).length = (Split cfg.names pipe).length) :
    (Prepare g cfg this).panic ≠ some Panic.indexOutOfRange ∧
    (Prepare g cfg this).globals.langTypes =
      List.zipWith langType.mk (Split cfg.types pipe) (Split cfg.names pipe) ∧
    (Prepare g cfg this).globals.langTypes.length = (Split cfg.types pipe).length ∧
    ∀ (i : Nat) (code name : GoString), (Split cfg.types pipe)[i]? = some code →
      (Split cfg.names pipe)[i]? = some name →
      (Prepare g cfg this).globals.langTypes[i]? = some (langType.mk code name) := by
  have hz := Prepare_langTypes_zip g cfg this hg
  refine ⟨?_, hz, ?_, ?_⟩
  · rw [Ne, Prepare_panic_of_nil g cfg this hg, initLangs_eq]
    simp [hlen]
  · rw [hz, List.length_zipWith, hlen, Nat.min_self]
  · intro i code name hc hn
    rw [hz, List.getElem?_zipWith, hc, hn]

/-- The settings `en-US|de-DE` and `English|Deutsch` load the two entries in
that order. -/
theorem load_zips_witness :
    startGlobals.langTypes = [] ∧
    (Split typesTwo pipe).length = (Split namesTwo pipe).length ∧
    (Prepare startGlobals ⟨typesTwo, namesTwo⟩
      (freshRouter ⟨rootPath, none, none⟩ ⟨[]⟩)).globals.langTypes =
      [⟨enUS, nameEnglish⟩, ⟨deDE, nameDeutsch⟩] :=
  ⟨rfl, by decide,
    (load_zips startGlobals ⟨typesTwo, namesTwo⟩
      (freshRouter ⟨rootPath, none, none⟩ ⟨[]⟩) rfl (by decide)).2.1.trans (by decide)⟩

/-- C15: every load leaves a non-empty registry, for every configuration, and
every later call of `Prepare`, whatever the configuration and the other
package variables are by then, leaves that registry unchanged. -/
theorem load_idempotent (g : Globals) (cfg : Config) (this : baseRouter)
    (appVer : GoString) (isProMode isBeta : Bool) (cfg2 : Config)
    (this2 : baseRouter) :
    (Prepare g cfg this).globals.langTypes ≠ [] ∧
    (Prepare ⟨appVer, isProMode, isBeta, (Prepare g cfg this).globals.langTypes⟩ cfg2
      this2).globals.langTypes = (Prepare g cfg this).globals.langTypes :=
  ⟨Prepare_langTypes_ne_nil g cfg this,
    Prepare_langTypes_of_ne_nil _ cfg2 this2 (Prepare_langTypes_ne_nil g cfg this)⟩

/-- The empty settings load the one entry with the empty code, and a later
call with other settings keeps it. -/
theorem load_idempotent_witness :
    (Prepare startGlobals ⟨[], []⟩
      (freshRouter ⟨rootPath, none, none⟩ ⟨[]⟩)).globals.langTypes = blankLangs ∧
    (Prepare startGlobals ⟨[], []⟩
      (freshRouter ⟨rootPath, none, none⟩ ⟨[]⟩)).globals.langTypes ≠ [] ∧
    (Prepare ⟨[], false, false, (Prepare startGlobals ⟨[], []⟩
        (freshRouter ⟨rootPath, none, none⟩ ⟨[]⟩)).globals.langTypes⟩
      ⟨typesTwo, namesTwo⟩ (freshRouter ⟨rootPath, none, none⟩ ⟨[]⟩)).globals.langTypes =
      (Prepare startGlobals ⟨[], []⟩
        (freshRouter ⟨rootPath, none, none⟩ ⟨[]⟩)).globals.langTypes :=
  ⟨by decide,
    load_idempotent startGlobals ⟨[], []⟩ (freshRouter ⟨rootPath, none, none⟩ ⟨[]⟩)
      [] false false ⟨typesTwo, namesTwo⟩ (freshRouter ⟨rootPath, none, none⟩ ⟨[]⟩)⟩

/-! ## Panics and the redirect -/

/-- Under the guard of line 110 the slice `al[:5]` of line 111 is in bounds. -/
theorem slicePrefix_five (al : GoString) (h : 4 < al.length) :
    slicePrefix al 5 = some (al.take 5) := by
  have h5 : (5 : Int) ≤ (al.length : Int) := by omega
  simp [slicePrefix, h5]

/-- The registry `Prepare` hands to `setLangVer` is never empty, so no call
of `Prepare` ends in the allocation panic of line 134. -/
theorem Prepare_never_makeslice (g : Globals) (cfg : Config) (this : baseRouter) :
    (Prepare g cfg this).panic ≠ some Panic.makesliceCap := by
  by_cases h : g.langTypes = []
  · have hne : (initLangs (Split cfg.names pipe) 0 (Split cfg.types pipe) []).1 ≠ [] := by
      rw [initLangs_eq]
      intro hz
      simp only [List.nil_append, List.drop_zero] at hz
      rcases List.zipWith_eq_nil_iff.1 hz with h1 | h1
      · exact Split_ne_nil _ _ h1
      · exact Split_ne_nil _ _ h1
    unfold Prepare
    simp only [h, List.length_nil, if_true]
    split
    · simp
    · split
      · next hret =>
        obtain ⟨b, c, hr⟩ := ret_of_ne_nil this.Ctx this.Input
          (((this.Data.set keyAppVer (Value.str g.AppVer)).set keyIsProMode
            (Value.bool g.IsProMode)).set keyIsBeta (Value.bool g.IsBeta)) hne
        rw [hr] at hret
        exact Option.noConfusion hret
      · split
        · split <;> simp
        · simp
  · have hl : ¬ g.langTypes.length = 0 := fun h0 => h (List.length_eq_zero.1 h0)
    unfold Prepare
    simp only [hl, if_false, Bool.false_eq_true]
    split
    · next hret =>
      obtain ⟨b, c, hr⟩ := ret_of_ne_nil this.Ctx this.Input
        (((this.Data.set keyAppVer (Value.str g.AppVer)).set keyIsProMode
          (Value.bool g.IsProMode)).set keyIsBeta (Value.bool g.IsBeta)) h
      rw [hr] at hret
      exact Option.noConfusion hret
    · split
      · split <;> simp
      · simp

/-- C16, as stated, fails on the empty registry: with the cookie `en-US` and
the header `de-DE,en;q=0.8` the call panics at the allocation of the
other-languages list, whose capacity is `-1`, and returns nothing. -/
theorem never_fails_counterexample :
    (setLangVer [] (freshCtx ⟨rootPath, some enUS, some deHeader⟩) ⟨[]⟩ noData).ret =
      none := by
  decide

/-- C16, amended: for every non-empty registry and every request `setLangVer`
returns a result without panicking; the slice of the header to 5 bytes is
taken only from a header of more than 4 bytes and is in bounds, and the
allocation of the other-languages list gets a capacity of at least 0. -/
theorem setLangVer_returns (L : List langType) (ctx : Context) (input : Values)
    (data : Data) (hL : L ≠ []) :
    (∃ b c, (setLangVer L ctx input data).ret = some (b, c)) ∧
    (4 < ctx.Request.HeaderGet.length →
      slicePrefix ctx.Request.HeaderGet 5 = some (ctx.Request.HeaderGet.take 5)) ∧
    0 ≤ (L.length : Int) - 1 := by
  refine ⟨ret_of_ne_nil ctx input data hL, slicePrefix_five _, ?_⟩
  have : 0 < L.length := List.length_pos.2 hL
  omega

/-- On a one-entry registry a request with the header `de-DE,en;q=0.8`
returns. -/
theorem setLangVer_returns_witness :
    germanOnly ≠ [] ∧
    (∃ b c, (setLangVer germanOnly (freshCtx ⟨rootPath, some enUS, some deHeader⟩) ⟨[]⟩
      noData).ret = some (b, c)) ∧
    slicePrefix deHeader 5 = some deDE :=
  have h := setLangVer_returns germanOnly
    (freshCtx ⟨rootPath, some enUS, some deHeader⟩) ⟨[]⟩ noData (by decide)
  ⟨by decide, h.1, (h.2.1 (by decide)).trans (by decide)⟩

/-- C17, the failing input: a request whose form carries `lang=fr-FR` while
its request URI `/` has no `?`.  `setLangVer` returns `needsRedirect = true`,
`strings.Index` returns `-1`, and `Prepare` panics at `RequestURI[:i]`
instead of issuing the redirect. -/
theorem redirect_without_question_mark :
    (setLangVer sampleLangs (freshCtx ⟨rootPath, none, none⟩) ⟨[frFR]⟩ noData).ret =
      some (true, frFR) ∧
    Index rootPath questionMark = -1 ∧
    (Prepare ⟨[], false, false, sampleLangs⟩ ⟨typesTwo, namesTwo⟩
      (freshRouter ⟨rootPath, none, none⟩ ⟨[frFR]⟩)).panic = some Panic.sliceBounds ∧
    (Prepare ⟨[], false, false, sampleLangs⟩ ⟨typesTwo, namesTwo⟩
      (freshRouter ⟨rootPath, none, none⟩ ⟨[frFR]⟩)).this.redirect = none ∧
    (Prepare ⟨[], false, false, sampleLangs⟩ ⟨typesTwo, namesTwo⟩
      (freshRouter ⟨rootPath, none, none⟩ ⟨[frFR]⟩)).this.Locale = some frFR := by
  decide

/-- The same form value with the request URI `/?lang=fr-FR` is redirected to
`/` with status 302. -/
theorem redirect_with_question_mark :
    (Prepare ⟨[], false, false, sampleLangs⟩ ⟨typesTwo, namesTwo⟩
      (freshRouter ⟨uriWithQuery, none, none⟩ ⟨[frFR]⟩)).panic = none ∧
    (Prepare ⟨[], false, false, sampleLangs⟩ ⟨typesTwo, namesTwo⟩
      (freshRouter ⟨uriWithQuery, none, none⟩ ⟨[frFR]⟩)).this.redirect =
      some (rootPath, 302) := by
  decide

/-! ## The masked cookie and the five-byte codes -/

/-- C18, as stated, fails on the empty registry: the query value `xx` is
non-empty and unregistered, and with the cookie `en-US` as with the cookie
`de-DE` the call panics and returns no code. -/
theorem masked_cookie_counterexample :
    (Values.mk [xx]).Get ≠ [] ∧ (Values.mk [xx]).Get ∉ codes [] ∧
    (setLangVer [] (freshCtx ⟨rootPath, some enUS, none⟩) ⟨[xx]⟩ noData).ret = none ∧
    (setLangVer [] (freshCtx ⟨rootPath, some deDE, none⟩) ⟨[xx]⟩ noData).ret = none := by
  decide

/-- C18, amended: for every non-empty registry and every two requests with
the same `Accept-Language` header, whatever their `lang` cookies, if the
`lang` query parameter is non-empty and not a registered code, `setLangVer`
returns the same code with `needsRedirect = false` for both: the first five
bytes of the header when the header is longer than 4 bytes and they are a
registered code, and `"en-US"` otherwise. -/
theorem unregistered_query_masks_cookie (L : List langType) (ctx1 ctx2 : Context)
    (input : Values) (data : Data) (hL : L ≠ []) (hne : input.Get ≠ [])
    (hc : input.Get ∉ codes L)
    (hal : ctx1.Request.acceptLanguage = ctx2.Request.acceptLanguage) :
    ∃ c, (setLangVer L ctx1 input data).ret = some (false, c) ∧
      (setLangVer L ctx2 input data).ret = some (false, c) ∧
      c = if 4 < ctx1.Request.HeaderGet.length ∧
            ctx1.Request.HeaderGet.take 5 ∈ codes L
          then ctx1.Request.HeaderGet.take 5 else enUS := by
  have hh : ctx2.Request.HeaderGet = ctx1.Request.HeaderGet := by
    simp [Request.HeaderGet, hal]
  have hc1 : candidate ctx1 input = [] ∨ candidate ctx1 input ∉ codes L := by
    right; simpa [candidate, hne] using hc
  have hc2 : candidate ctx2 input = [] ∨ candidate ctx2 input ∉ codes L := by
    right; simpa [candidate, hne] using hc
  by_cases hsel : 4 < ctx1.Request.HeaderGet.length ∧
      ctx1.Request.HeaderGet.take 5 ∈ codes L
  · refine ⟨_, ret_of_header data hc1 hsel.1 hsel.2, ?_, (if_pos hsel).symm⟩
    have := ret_of_header data hc2 (hh ▸ hsel.1) (hh ▸ hsel.2)
    rw [hh] at this
    exact this
  · refine ⟨_, ret_of_fallback data hL hc1 hsel, ?_, (if_neg hsel).symm⟩
    exact ret_of_fallback data hL hc2 (hh ▸ hsel)

/-- With the query `xx` the cookies `en-US` and `fr-FR` change nothing: the
header `de-DE,en;q=0.8` selects `de-DE` for both. -/
theorem unregistered_query_masks_cookie_witness :
    sampleLangs ≠ [] ∧ (Values.mk [xx]).Get ≠ [] ∧ (Values.mk [xx]).Get ∉ codes sampleLangs ∧
    ∃ c, (setLangVer sampleLangs (freshCtx ⟨rootPath, some enUS, some deHeader⟩) ⟨[xx]⟩
        noData).ret = some (false, c) ∧
      (setLangVer sampleLangs (freshCtx ⟨rootPath, some frFR, some deHeader⟩) ⟨[xx]⟩
        noData).ret = some (false, c) ∧
      c = deDE :=
  have h := unregistered_query_masks_cookie sampleLangs
    (freshCtx ⟨rootPath, some enUS, some deHeader⟩)
    (freshCtx ⟨rootPath, some frFR, some deHeader⟩) ⟨[xx]⟩ noData
    (by decide) (by decide) (by decide) rfl
  ⟨by decide, by decide, by decide, h.choose, h.choose_spec.1, h.choose_spec.2.1,
    h.choose_spec.2.2.trans (by decide)⟩

/-- C19: when neither the query parameter nor the cookie supplies a
registered non-empty code, every code `setLangVer` returns is exactly 5 bytes
long; hence a returned code whose length is not 5 is the registered value of
the query parameter or of the cookie.  The call does return for every
non-empty registry. -/
theorem fallthrough_code_five_bytes (L : List langType) (ctx : Context)
    (input : Values) (data : Data) :
    (¬ (input.Get ≠ [] ∧ input.Get ∈ codes L) →
      (∀ v, ctx.Request.langCookie = some v → ¬ (v ≠ [] ∧ v ∈ codes L)) →
      ∀ b c, (setLangVer L ctx input data).ret = some (b, c) → c.length = 5) ∧
    (∀ b c, (setLangVer L ctx input data).ret = some (b, c) → c.length ≠ 5 →
      (input.Get = c ∧ c ∈ codes L) ∨ (ctx.Request.langCookie = some c ∧ c ∈ codes L)) ∧
    (L ≠ [] → ∃ b c, (setLangVer L ctx input data).ret = some (b, c)) := by
  have key : ∀ b c, (setLangVer L ctx input data).ret = some (b, c) →
      c.length = 5 ∨ (input.Get ≠ [] ∧ input.Get = c ∧ c ∈ codes L) ∨
        (ctx.Request.langCookie = some c ∧ c ≠ [] ∧ c ∈ codes L) := by
    intro b c h
    have hL := (ret_code_props h).1
    rcases ret_cases ctx input data hL with ⟨hne, hc, hr⟩ | ⟨_, c1, hck, hne, hc, hr⟩ |
        ⟨_, hlen, _, hr⟩ | ⟨_, hr⟩
    · rw [hr] at h
      obtain ⟨_, rfl⟩ := Prod.mk.inj (Option.some.inj h)
      exact Or.inr (Or.inl ⟨hne, rfl, hc⟩)
    · rw [hr] at h
      obtain ⟨_, rfl⟩ := Prod.mk.inj (Option.some.inj h)
      exact Or.inr (Or.inr ⟨hck, hne, hc⟩)
    · rw [hr] at h
      obtain ⟨_, rfl⟩ := Prod.mk.inj (Option.some.inj h)
      left
      rw [List.length_take]
      omega
    · rw [hr] at h
      obtain ⟨_, rfl⟩ := Prod.mk.inj (Option.some.inj h)
      exact Or.inl rfl
  refine ⟨?_, ?_, fun hL => ret_of_ne_nil ctx input data hL⟩
  · intro hq hck b c h
    rcases key b c h with h5 | ⟨hne, rfl, hc⟩ | ⟨hk, hne, hc⟩
    · exact h5
    · exact absurd ⟨hne, hc⟩ hq
    · exact absurd ⟨hne, hc⟩ (hck c hk)
  · intro b c h hlen
    rcases key b c h with h5 | ⟨_, hq, hc⟩ | ⟨hk, _, hc⟩
    · exact absurd h5 hlen
    · exact Or.inl ⟨hq, hc⟩
    · exact Or.inr ⟨hk, hc⟩

/-- On the registry whose one code is `en`, a request without query
parameter and cookie whose header is `en` returns the 5-byte `en-US`, not the
2-byte registered code. -/
theorem fallthrough_code_five_bytes_witness :
    (setLangVer shortLangs (freshCtx ⟨rootPath, none, some en⟩) ⟨[]⟩ noData).ret =
      some (false, enUS) ∧
    enUS.length = 5 :=
  ⟨by decide,
    (fallthrough_code_five_bytes shortLangs (freshCtx ⟨rootPath, none, some en⟩) ⟨[]⟩
      noData).1 (by decide) (fun v h => Option.noConfusion h) false enUS (by decide)⟩

end Routers
